import Mathlib

/-
Verification of the Baserow field-type engine specification against the code in
src/backend/src/baserow/contrib/database/fields/field_types.py.

The Python classes are shallowly embedded: Django model rows become Lean
structures, Python values that can flow through a field's value-coercion hook
become the inductive type `Value`, fallible code returns `Except`, and side
effects on the field table become explicit state passing over `FieldDB`.
Library behaviour that cannot be replicated exactly (URL/email validators,
dateutil's parser) is a parameter of the embedding; behaviour of this
repository that is not under src/ (the base FieldType defaults and the
FieldHandler pipeline) is modelled from the spec and marked as such in the
doc comment of the definition.
-/

set_option maxHeartbeats 1000000

namespace Baserow

/-- Number type constant from baserow.contrib.database.fields.models. -/
def NUMBER_TYPE_INTEGER : String := "INTEGER"

/-- Number type constant from baserow.contrib.database.fields.models. -/
def NUMBER_TYPE_DECIMAL : String := "DECIMAL"

/-- A SelectOption row: id, text value and the id of the owning field. -/
structure SelectOptionRow where
  id : Nat
  value : String
  field_id : Nat
deriving DecidableEq, Repr

/-- A UserFile row (baserow.core.models), reduced to the attributes the file
field coercion reads: the unique storage name and the original upload name. -/
structure UserFileRow where
  name : String
  original_name : String
deriving DecidableEq, Repr

/-- A file object as provided to / produced by FileFieldType.prepare_value_for_db:
a dict carrying a file name and an optional visible name. -/
structure FileObj where
  name : String
  visible_name : Option String
deriving DecidableEq, Repr

/-- A Python value that can flow through a field's value coercion hook.
Dates are represented by their day number and datetimes by their wall-clock
minute count together with a timezone offset in minutes (the instant of a
datetime is `minutes - offsetMin`); this is a faithful renaming of the
calendar representation, which the claims never compute with. -/
inductive Value where
  | null
  | str (s : String)
  | int (n : Int)
  | decimal (q : Rat)
  | boolean (b : Bool)
  | date (day : Int)
  | datetime (minutes : Int) (offsetMin : Int)
  | opt (o : SelectOptionRow)
  | listInt (l : List Int)
  | files (l : List FileObj)
deriving DecidableEq, Repr

/-- Python truthiness on `Value` (`not value` in the source). -/
def Value.falsy : Value → Bool
  | .null => true
  | .str s => s.isEmpty
  | .int n => n == 0
  | .decimal q => q == 0
  | .boolean b => !b
  | .listInt l => l.isEmpty
  | .files l => l.isEmpty
  | _ => false

/-- The field configuration attributes read by the hooks under verification,
one structure mirroring the union of the Django Field model's columns. -/
structure FieldInstance where
  id : Nat
  number_type : String := NUMBER_TYPE_INTEGER
  number_decimal_places : Nat := 0
  number_negative : Bool := false
  date_include_time : Bool := false
deriving DecidableEq, Repr

/-- Errors raised by the coercion hooks.  `NegativeNotAllowed` is the spec's
name for the ValidationError raised by NumberFieldType.prepare_value_for_db,
`UnparsableDate` for the one raised by DateFieldType, and so on. -/
inductive CoerceError where
  | InvalidFormat
  | NegativeNotAllowed
  | InvalidDecimal
  | UnparsableDate
  | InvalidDateValue
  | InvalidOption
  | FileNotFound (name : String)
  | InvalidFileValue
  | InvalidLinkValue
deriving DecidableEq, Repr

/-- Digits of a numeral to the natural number they denote. -/
def digitsToNat (cs : List Char) : Nat :=
  cs.foldl (fun a c => a * 10 + (c.toNat - 48)) 0

/-- Model of Python's `Decimal(string)` constructor on the plain decimal
syntax (optional sign, integer digits, optional fraction); strings outside
this grammar are rejected like Decimal's InvalidOperation. -/
def parseDecimalString (s : String) : Option Rat :=
  let cs := s.toList
  let signed : Int × List Char :=
    match cs with
    | '-' :: rest => (-1, rest)
    | '+' :: rest => (1, rest)
    | rest => (1, rest)
  let sign := signed.1
  let body := signed.2
  let intPart := body.takeWhile Char.isDigit
  let rest := body.dropWhile Char.isDigit
  match rest with
  | [] =>
    if intPart.isEmpty then none
    else some ((sign * (digitsToNat intPart : Int) : Int) : Rat)
  | '.' :: frac =>
    if frac.all Char.isDigit ∧ ¬ (intPart.isEmpty ∧ frac.isEmpty) then
      some ((sign : Rat) *
        ((digitsToNat intPart : Rat) + (digitsToNat frac : Rat) / (10 : Rat) ^ frac.length))
    else none
  | _ => none

/-- Python's `Decimal(value)` on a `Value`: parses strings, converts ints and
bools, keeps an already-parsed Decimal, and fails on anything else. -/
def pyDecimal : Value → Option Rat
  | .int n => some (n : Rat)
  | .decimal q => some q
  | .boolean b => some (if b then 1 else 0)
  | .str s => parseDecimalString s
  | _ => none

namespace NumberFieldType

/-- NumberFieldType.prepare_value_for_db: a non-null value is parsed with
Decimal and, when the field disallows negative values and the parsed decimal
is negative, a ValidationError (NegativeNotAllowed) is raised. -/
def prepare_value_for_db (inst : FieldInstance) (value : Value) :
    Except CoerceError Value :=
  match value with
  | .null => .ok .null
  | v =>
    match pyDecimal v with
    | none => .error .InvalidDecimal
    | some q =>
      if ¬ inst.number_negative ∧ q < 0 then .error .NegativeNotAllowed
      else .ok (.decimal q)

/-- NumberFieldType.after_update applied to the rows of the field's column:
when no column alteration happened and the allow-negative flag switched from
allowed to disallowed, every row with a value below zero is updated to zero. -/
def after_update (from_field to_field : FieldInstance) (altered_column : Bool)
    (rows : List (Option Rat)) : List (Option Rat) :=
  if ¬ altered_column ∧ ¬ to_field.number_negative ∧ from_field.number_negative then
    rows.map (fun v => v.map (fun x => if x < 0 then 0 else x))
  else
    rows

end NumberFieldType

namespace DateFieldType

/-- The UTC normalization of a wall-clock datetime: astimezone(utc) followed by
the include-time truncation of DateFieldType.prepare_value_for_db. -/
def dateTimeToUTC (inst : FieldInstance) (m off : Int) : Except CoerceError Value :=
  let u := m - off
  if inst.date_include_time then .ok (.datetime u 0)
  else .ok (.date (u / 1440))

/-- The two trailing type checks of DateFieldType.prepare_value_for_db: a date
is turned into a UTC midnight datetime (make_aware), a datetime is converted
to UTC (astimezone) and truncated to its date when the field has no time
component, and any other type raises a ValidationError. -/
def dateFinish (inst : FieldInstance) : Value → Except CoerceError Value
  | .date d => dateTimeToUTC inst (d * 1440) 0
  | .datetime m off => dateTimeToUTC inst m off
  | _ => .error .InvalidDateValue

/-- DateFieldType.prepare_value_for_db.  `parse` stands for dateutil's
`parser.parse`, returning the wall minutes and effective offset of the parsed
datetime; everything after the parse is translated from the source: a falsy
value is returned unchanged, a string is parsed into a datetime (failing with
a ValidationError, UnparsableDate, when unparseable), and the trailing type
checks run as `dateFinish`. -/
def prepare_value_for_db (parse : String → Option (Int × Int))
    (inst : FieldInstance) (value : Value) : Except CoerceError Value :=
  if value.falsy then .ok value
  else
    match value with
    | .str s =>
      match parse s with
      | some p => dateFinish inst (.datetime p.1 p.2)
      | none => .error .UnparsableDate
    | v => dateFinish inst v

end DateFieldType

namespace URLFieldType

/-- URLFieldType.prepare_value_for_db: empty string and None become the empty
string; otherwise the value is passed through Django's URLValidator (the
parameter `valid`, since the validator's regex is library code) and returned
unchanged when it validates.  Non-string values fail the validator. -/
def prepare_value_for_db (valid : String → Bool) (value : Value) :
    Except CoerceError Value :=
  match value with
  | .null => .ok (.str "")
  | .str s =>
    if s = "" then .ok (.str "")
    else if valid s then .ok (.str s) else .error .InvalidFormat
  | _ => .error .InvalidFormat

end URLFieldType

namespace EmailFieldType

/-- EmailFieldType.prepare_value_for_db, same shape as the URL field with
Django's EmailValidator as the `valid` parameter. -/
def prepare_value_for_db (valid : String → Bool) (value : Value) :
    Except CoerceError Value :=
  match value with
  | .null => .ok (.str "")
  | .str s =>
    if s = "" then .ok (.str "")
    else if valid s then .ok (.str s) else .error .InvalidFormat
  | _ => .error .InvalidFormat

end EmailFieldType

namespace SingleSelectFieldType

/-- SingleSelectFieldType.prepare_value_for_db over the SelectOption table
`optionsDB`: None passes through, an int is resolved to the SelectOption with
that id belonging to this field, an option belonging to this field passes
through, anything else raises a ValidationError (InvalidOption). -/
def prepare_value_for_db (optionsDB : List SelectOptionRow)
    (inst : FieldInstance) (value : Value) : Except CoerceError Value :=
  match value with
  | .null => .ok .null
  | .int n =>
    match optionsDB.find? (fun o => o.field_id == inst.id && (o.id : Int) == n) with
    | some o => .ok (.opt o)
    | none => .error .InvalidOption
  | .opt o => if o.field_id == inst.id then .ok (.opt o) else .error .InvalidOption
  | _ => .error .InvalidOption

end SingleSelectFieldType

namespace FileFieldType

/-- The per-file loop of FileFieldType.prepare_value_for_db: each provided
object is resolved against the UserFile table by name (first match, like the
`next(...)` over the queryset) and serialized in the provided order; the
serialized object carries the provided visible name or, when that is absent
or empty (falsy), the user file's original name.  A missing file raises
UserFileDoesNotExist (FileNotFound). -/
def resolveFiles (userFiles : List UserFileRow) :
    List FileObj → Except CoerceError (List FileObj)
  | [] => .ok []
  | o :: rest =>
    match userFiles.find? (fun u => u.name == o.name) with
    | none => .error (.FileNotFound o.name)
    | some u =>
      match resolveFiles userFiles rest with
      | .error e => .error e
      | .ok rest2 =>
        .ok ({ name := u.name,
               visible_name := some (match o.visible_name with
                 | some vn => if vn.isEmpty then u.original_name else vn
                 | none => u.original_name) } :: rest2)

/-- FileFieldType.prepare_value_for_db: None becomes the empty list, a list of
file objects is resolved with `resolveFiles`, anything else raises a
ValidationError. -/
def prepare_value_for_db (userFiles : List UserFileRow) (value : Value) :
    Except CoerceError Value :=
  match value with
  | .null => .ok (.files [])
  | .files l => (resolveFiles userFiles l).map .files
  | _ => .error .InvalidFileValue

end FileFieldType

namespace TextFieldType

/-- Modelled from the spec: TextFieldType and LongTextFieldType define no
prepare_value_for_db, and the base FieldType hook (registries.py, not under
src/) is the identity per spec §4.2 ("Text/long-text: any value passes"). -/
def coerce_for_storage (value : Value) : Except CoerceError Value :=
  .ok value

end TextFieldType

namespace BooleanFieldType

/-- Modelled from the spec: BooleanFieldType defines no prepare_value_for_db;
spec §4.2 says boolean "coerces any raw input to true/false, default false",
i.e. Python truthiness. -/
def coerce_for_storage (value : Value) : Except CoerceError Value :=
  .ok (.boolean (!value.falsy))

end BooleanFieldType

namespace LinkRowFieldType

/-- Modelled from the spec: LinkRowFieldType defines no prepare_value_for_db;
spec §4.2 says link-row "accepts a list of foreign row ids (non-negative
integers)", not validated against the linked table here. -/
def coerce_for_storage (value : Value) : Except CoerceError Value :=
  match value with
  | .listInt l => if l.all (fun n => 0 ≤ n) then .ok (.listInt l) else .error .InvalidLinkValue
  | _ => .error .InvalidLinkValue

end LinkRowFieldType

/-- The registered field type names of field_types.py. -/
inductive FieldTypeKind where
  | text
  | long_text
  | url
  | email
  | number
  | boolean
  | date
  | link_row
  | file
  | single_select
deriving DecidableEq, Repr

/-- The environment a coercion runs in: the library validators and parser the
source delegates to, and the database tables it reads. -/
structure CoerceEnv where
  urlValid : String → Bool
  emailValid : String → Bool
  dateParse : String → Option (Int × Int)
  optionsDB : List SelectOptionRow
  userFiles : List UserFileRow

/-- coerce_for_storage (spec §4.2 name of prepare_value_for_db), dispatched on
the field type as the registry does. -/
def coerce_for_storage (env : CoerceEnv) (kind : FieldTypeKind)
    (inst : FieldInstance) (value : Value) : Except CoerceError Value :=
  match kind with
  | .text => TextFieldType.coerce_for_storage value
  | .long_text => TextFieldType.coerce_for_storage value
  | .url => URLFieldType.prepare_value_for_db env.urlValid value
  | .email => EmailFieldType.prepare_value_for_db env.emailValid value
  | .number => NumberFieldType.prepare_value_for_db inst value
  | .boolean => BooleanFieldType.coerce_for_storage value
  | .date => DateFieldType.prepare_value_for_db env.dateParse inst value
  | .link_row => LinkRowFieldType.coerce_for_storage value
  | .file => FileFieldType.prepare_value_for_db env.userFiles value
  | .single_select => SingleSelectFieldType.prepare_value_for_db env.optionsDB inst value

/-- The abstract syntax of the SQL expression generated by
NumberFieldType.get_alter_column_prepare_new_value: the incoming text value
`p_in` cast to numeric, wrapped in round(..., places) and possibly in
greatest(..., 0). -/
inductive NumExpr where
  | input
  | round (e : NumExpr) (places : Nat)
  | greatest0 (e : NumExpr)
deriving DecidableEq, Repr

/-- Round half away from zero, as Postgres round(numeric, s) does. -/
def roundHalfAway (q : Rat) : Int :=
  if 0 ≤ q then ⌊q + 1 / 2⌋ else -⌊-q + 1 / 2⌋

/-- Postgres round(x, places) on rationals. -/
def roundRat (q : Rat) (places : Nat) : Rat :=
  ((roundHalfAway (q * (10 : Rat) ^ places) : Int) : Rat) / (10 : Rat) ^ places

/-- Evaluation of the generated expression on a numeric input, with round
half away from zero and greatest(x, 0) as in Postgres. -/
def NumExpr.eval : NumExpr → Rat → Rat
  | .input, x => x
  | .round e p, x => roundRat (e.eval x) p
  | .greatest0 e, x => max (e.eval x) 0

namespace NumberFieldType

/-- NumberFieldType.get_alter_column_prepare_new_value: on postgresql the
generated fragment rounds `p_in` to the target decimal places (zero unless
the target is a decimal number field) and wraps it in greatest(..., 0)
whenever the target field does not allow negative values; on any other vendor
the base hook applies, which generates no fragment. -/
def get_alter_column_prepare_new_value (vendor : String)
    (from_field to_field : FieldInstance) : Option NumExpr :=
  if vendor = "postgresql" then
    let decimal_places :=
      if to_field.number_type = NUMBER_TYPE_DECIMAL then to_field.number_decimal_places
      else 0
    let function0 := NumExpr.round NumExpr.input decimal_places
    let function1 :=
      if ¬ to_field.number_negative then NumExpr.greatest0 function0 else function0
    some function1
  else none

end NumberFieldType

/-- Postgres lower() and Python str.lower() on the claims' alphabets,
character-wise lowercasing. -/
def pyLower (s : String) : String :=
  String.mk (s.data.map Char.toLower)

namespace SingleSelectFieldType

/-- SingleSelectFieldType.get_alter_column_prepare_old_value: when converting
to a different field type on postgresql, the generated fragment maps the
stored option id to the option's text value through a literal VALUES table;
with zero options no fragment is generated (every value becomes null), and
for a same-type conversion or another vendor the base hook generates no
fragment.  The fragment is represented by its id-to-text rows. -/
def get_alter_column_prepare_old_value (vendor : String)
    (from_options : List SelectOptionRow) (to_field_type : String) :
    Option (List (Nat × String)) :=
  if to_field_type ≠ "single_select" ∧ vendor = "postgresql" then
    let values_mapping := from_options.map (fun o => (o.id, o.value))
    if values_mapping.length = 0 then none else some values_mapping
  else none

/-- SingleSelectFieldType.get_alter_column_prepare_new_value: when converting
from a different field type on postgresql, the generated fragment maps the
lower-cased incoming text to an option id through a literal VALUES table keyed
by the lower-cased option values; with zero options no fragment is generated. -/
def get_alter_column_prepare_new_value (vendor : String)
    (from_field_type : String) (to_options : List SelectOptionRow) :
    Option (List (String × Nat)) :=
  if from_field_type ≠ "single_select" ∧ vendor = "postgresql" then
    let values_mapping := to_options.map (fun o => (pyLower o.value, o.id))
    if values_mapping.length = 0 then none else some values_mapping
  else none

end SingleSelectFieldType

/-- Semantics of the old-value fragment: the scalar subquery
`SELECT value FROM (VALUES ...) WHERE key = p_in` yields the value of the
matching row and null when no row matches or when `p_in` is null. -/
def evalOldBridge (m : List (Nat × String)) (v : Option Nat) : Option String :=
  v.bind (fun i => (m.find? (fun p => p.1 == i)).map (fun p => p.2))

/-- Semantics of the new-value fragment: the scalar subquery keyed by
`lower(p_in)` yields the option id of the matching row and null otherwise. -/
def evalNewBridge (m : List (String × Nat)) (v : Option String) : Option Nat :=
  v.bind (fun s => (m.find? (fun p => p.1 == pyLower s)).map (fun p => p.2))

/-- Modelled from the spec: the conversion engine (lenient schema editor, not
under src/) applies the old-value fragment to every stored row when the hook
produced one; when the single-select hook produced no fragment "all values
will be converted to null" (comment in the source hook, spec §4.4). -/
def convertSingleSelectAway (vendor : String) (from_options : List SelectOptionRow)
    (to_field_type : String) (rows : List (Option Nat)) : List (Option String) :=
  match SingleSelectFieldType.get_alter_column_prepare_old_value vendor
      from_options to_field_type with
  | none => rows.map (fun _ => none)
  | some m => rows.map (evalOldBridge m)

/-- Sorting of a field's select options by their text value, the embedding of
the queryset `field.select_options.all().order_by('value')`. -/
def sortByValue (l : List SelectOptionRow) : List SelectOptionRow :=
  l.insertionSort (fun a b => a.value ≤ b.value)

namespace SingleSelectFieldType

/-- SingleSelectFieldType.get_order: the options are sorted by value, None is
put in front, the list is reversed for a DESC sort, and the generated Case
expression maps each stored option id (or null) to its index in that list. -/
def get_order (field_options : List SelectOptionRow) (sort_order : String) :
    List (Option Nat) :=
  let select_options := sortByValue field_options
  let options := (none : Option Nat) :: select_options.map (fun o => some o.id)
  if sort_order = "DESC" then options.reverse else options

end SingleSelectFieldType

/-- Semantics of the generated Case expression: the index of the first When
clause whose option (or null) equals the row's stored value, null when no
clause matches. -/
def caseRank : List (Option Nat) → Option Nat → Option Nat
  | [], _ => none
  | e :: rest, v => if e == v then some 0 else (caseRank rest v).map (· + 1)

/-- A Table row, reduced to what the link-row hooks read. -/
structure Table where
  id : Nat
  database_id : Nat
  name : String
deriving DecidableEq, Repr

/-- A persisted link-row Field row. -/
structure LinkRowField where
  id : Nat
  table : Table
  name : String
  link_row_table : Table
  link_row_related_field : Option Nat
  link_row_relation_id : Nat
deriving DecidableEq, Repr

/-- The caller-supplied values of a link-row field creation:
`link_row_table` is None when the caller supplied no linked table (absent key
or falsy value). -/
structure LinkRowValues where
  name : String
  link_row_table : Option Table
  link_row_related_field : Option Nat
  link_row_relation_id : Option Nat
deriving DecidableEq, Repr

/-- The persisted link-row field rows of the whole installation, with the
id and relation-id sequences. -/
structure FieldDB where
  fields : List LinkRowField
  nextId : Nat
  nextRelationId : Nat
deriving DecidableEq, Repr

/-- Well-formedness of the field table: every persisted id is below the id
sequence counter. -/
def FieldDB.wf (db : FieldDB) : Prop :=
  ∀ f ∈ db.fields, f.id < db.nextId

instance (db : FieldDB) : Decidable db.wf := by
  unfold FieldDB.wf
  infer_instance

/-- The errors of the link-row lifecycle hooks.  LinkRowTableNotProvided is
the exception the spec names LinkedTableRequired and
LinkRowTableNotInSameDatabase the one it names CrossDatabaseLink.
OutOfFuel is an artifact of the bounded model of the recursive handler call,
proved unreachable below. -/
inductive FieldError where
  | LinkRowTableNotProvided
  | LinkRowTableNotInSameDatabase
  | OutOfFuel
deriving DecidableEq, Repr

namespace LinkRowFieldType

/-- LinkRowFieldType.before_create: without a linked table the creation fails
with LinkRowTableNotProvided, and when the linked table's database id differs
from the table's database id it fails with LinkRowTableNotInSameDatabase;
otherwise the linked table is returned for the creation to proceed with. -/
def before_create (table : Table) (values : LinkRowValues) :
    Except FieldError Table :=
  match values.link_row_table with
  | none => .error .LinkRowTableNotProvided
  | some link_row_table =>
    if table.database_id ≠ link_row_table.database_id then
      .error .LinkRowTableNotInSameDatabase
    else
      .ok link_row_table

end LinkRowFieldType

/-- Modelled from the spec: FieldHandler.create_field is not under src/;
spec §4.5 orders the hooks as before_create, then the insertion of the Field
row and its column, then after_create, and spec §5 makes the whole change one
all-or-nothing transaction (an error leaves the database untouched).  The
link-row hook bodies are translated from LinkRowFieldType.before_create and
LinkRowFieldType.after_create in field_types.py: after_create returns at once
when link_row_related_field is already set, and otherwise creates the paired
field on the linked table through the handler, explicitly supplying the
back-reference and the relation id, then saves the back-reference on the
original field.  `fuel` bounds the nesting of handler calls so that the
embedding is structurally terminating; the theorems show fuel 2 is never
exhausted. -/
def createFieldAux : Nat → FieldDB → Table → LinkRowValues →
    Except FieldError (FieldDB × LinkRowField)
  | 0, _, _, _ => .error .OutOfFuel
  | fuel + 1, db, table, values =>
    match LinkRowFieldType.before_create table values with
    | .error e => .error e
    | .ok link_row_table =>
      let relId := values.link_row_relation_id.getD db.nextRelationId
      let field : LinkRowField :=
        { id := db.nextId
          table := table
          name := values.name
          link_row_table := link_row_table
          link_row_related_field := values.link_row_related_field
          link_row_relation_id := relId }
      let db1 : FieldDB :=
        { fields := db.fields ++ [field]
          nextId := db.nextId + 1
          nextRelationId :=
            if values.link_row_relation_id.isSome then db.nextRelationId
            else db.nextRelationId + 1 }
      match values.link_row_related_field with
      | some _ => .ok (db1, field)
      | none =>
        match createFieldAux fuel db1 field.link_row_table
          { name := field.table.name
            link_row_table := some field.table
            link_row_related_field := some field.id
            link_row_relation_id := some field.link_row_relation_id } with
        | .error e => .error e
        | .ok created =>
          let field1 : LinkRowField :=
            { field with link_row_related_field := some created.2.id }
          let db3 : FieldDB :=
            { created.1 with
              fields := created.1.fields.map
                (fun g => if g.id = field.id then field1 else g) }
          .ok (db3, field1)

namespace FieldHandler

/-- FieldHandler.create_field for a link-row field, with enough fuel for the
one-hop paired creation. -/
def create_field (db : FieldDB) (table : Table) (values : LinkRowValues) :
    Except FieldError (FieldDB × LinkRowField) :=
  createFieldAux 2 db table values

/-- The state of the field table after a creation attempt: the new state on
success, the unchanged state on failure (the transaction rolls back, spec §5). -/
def create_field_state (db : FieldDB) (table : Table) (values : LinkRowValues) :
    FieldDB :=
  match create_field db table values with
  | .ok p => p.1
  | .error _ => db

/-- Modelled from the spec: handler field deletion is not under src/; spec
§4.5 hook 6 deletes the field row, and LinkRowFieldType.after_delete
(field_types.py) then deletes the paired field row directly
(field.link_row_related_field.delete()). -/
def delete_field (db : FieldDB) (field : LinkRowField) : FieldDB :=
  { db with
    fields := db.fields.filter
      (fun g => g.id ≠ field.id ∧ some g.id ≠ field.link_row_related_field) }

end FieldHandler

/-- The pair of a link-row field: the persisted field its back-reference id
resolves to. -/
def pairOf (db : FieldDB) (f : LinkRowField) : Option LinkRowField :=
  f.link_row_related_field.bind (fun i => db.fields.find? (fun g => g.id == i))

instance : IsTotal SelectOptionRow (fun a b => a.value ≤ b.value) :=
  ⟨fun a b => le_total a.value b.value⟩

instance : IsTrans SelectOptionRow (fun a b => a.value ≤ b.value) :=
  ⟨fun _ _ _ h1 h2 => le_trans h1 h2⟩

/-- Helper: before_create fails with LinkRowTableNotProvided when no linked
table is supplied. -/
theorem before_create_none (t : Table) (v : LinkRowValues)
    (h : v.link_row_table = none) :
    LinkRowFieldType.before_create t v = .error .LinkRowTableNotProvided := by
  unfold LinkRowFieldType.before_create
  rw [h]

/-- Helper: before_create fails with LinkRowTableNotInSameDatabase when the
database ids differ. -/
theorem before_create_cross (t : Table) (v : LinkRowValues) (lt : Table)
    (h : v.link_row_table = some lt) (hdb : t.database_id ≠ lt.database_id) :
    LinkRowFieldType.before_create t v = .error .LinkRowTableNotInSameDatabase := by
  unfold LinkRowFieldType.before_create
  rw [h]
  show (if t.database_id ≠ lt.database_id then
      (Except.error FieldError.LinkRowTableNotInSameDatabase : Except FieldError Table)
    else Except.ok lt) = Except.error FieldError.LinkRowTableNotInSameDatabase
  rw [if_pos hdb]

/-- Helper: before_create returns the linked table when both tables are in the
same database. -/
theorem before_create_same (t : Table) (v : LinkRowValues) (lt : Table)
    (h : v.link_row_table = some lt) (hdb : t.database_id = lt.database_id) :
    LinkRowFieldType.before_create t v = .ok lt := by
  unfold LinkRowFieldType.before_create
  rw [h]
  show (if t.database_id ≠ lt.database_id then
      (Except.error FieldError.LinkRowTableNotInSameDatabase : Except FieldError Table)
    else Except.ok lt) = Except.ok lt
  rw [if_neg (by simpa using hdb)]

/-- Helper: a failing before_create aborts the creation with its error at any
fuel. -/
theorem createFieldAux_error (fuel : Nat) (db : FieldDB) (t : Table)
    (v : LinkRowValues) (e : FieldError)
    (h : LinkRowFieldType.before_create t v = .error e) :
    createFieldAux (fuel + 1) db t v = .error e := by
  unfold createFieldAux
  rw [h]

/-- Helper: a failing before_create aborts create_field with its error. -/
theorem create_field_error (db : FieldDB) (t : Table) (v : LinkRowValues)
    (e : FieldError) (h : LinkRowFieldType.before_create t v = .error e) :
    FieldHandler.create_field db t v = .error e :=
  createFieldAux_error 1 db t v e h

/-- Helper: updating the back-reference of a field id that occurs in no list
element leaves the list unchanged. -/
theorem map_upd_eq_self (l : List LinkRowField) (fid : Nat) (f1 : LinkRowField)
    (h : ∀ g ∈ l, g.id ≠ fid) :
    l.map (fun g => if g.id = fid then f1 else g) = l := by
  induction l with
  | nil => rfl
  | cons x t ih =>
    simp only [List.map_cons]
    rw [if_neg (h x (List.mem_cons_self x t)),
      ih (fun g hg => h g (List.mem_cons_of_mem x hg))]

/-- Helper: when the caller already supplies the back-reference, the creation
does not recurse, so its result does not depend on the fuel. -/
theorem createFieldAux_rel_set (fuel : Nat) (db : FieldDB) (t : Table)
    (v : LinkRowValues) (i : Nat) (h : v.link_row_related_field = some i) :
    createFieldAux (fuel + 1) db t v = createFieldAux 1 db t v := by
  rcases v with ⟨vname, vtab, vrel, vrelid⟩
  rcases vrel with _ | j
  · simp at h
  · unfold createFieldAux
    rfl

/-- Helper: two units of fuel fully determine the creation: any additional
fuel yields the same result, because the paired creation terminates in one
hop. -/
theorem createFieldAux_fuel_indep (extra : Nat) (db : FieldDB) (t : Table)
    (v : LinkRowValues) :
    createFieldAux (extra + 2) db t v = createFieldAux 2 db t v := by
  rcases v with ⟨vname, vtab, vrel, vrelid⟩
  rcases vrel with _ | j
  · rcases hbc : LinkRowFieldType.before_create t ⟨vname, vtab, none, vrelid⟩ with e | lt
    · rw [createFieldAux_error (extra + 1) _ _ _ _ hbc,
        createFieldAux_error 1 _ _ _ _ hbc]
    · unfold createFieldAux
      rw [hbc]
      simp only []
      rw [createFieldAux_rel_set (extra + 0) _ _ _ db.nextId rfl]
  · exact (createFieldAux_rel_set (extra + 1) db t ⟨vname, vtab, some j, vrelid⟩ j
      rfl).trans (createFieldAux_rel_set 1 db t ⟨vname, vtab, some j, vrelid⟩ j rfl).symm

/-- Helper: full run of a link-row field creation whose back-reference is
already supplied: exactly one field row is inserted and after_create returns
at once. -/
theorem createFieldAux_run_some (db : FieldDB) (t lt : Table) (vname : String)
    (vrelid : Option Nat) (j : Nat)
    (hdb : t.database_id = lt.database_id) :
    createFieldAux 2 db t ⟨vname, some lt, some j, vrelid⟩ =
      .ok
        ({ fields := db.fields ++
            [{ id := db.nextId, table := t, name := vname,
               link_row_table := lt,
               link_row_related_field := some j,
               link_row_relation_id := vrelid.getD db.nextRelationId }],
           nextId := db.nextId + 1,
           nextRelationId :=
             if vrelid.isSome then db.nextRelationId else db.nextRelationId + 1 },
         { id := db.nextId, table := t, name := vname,
           link_row_table := lt,
           link_row_related_field := some j,
           link_row_relation_id := vrelid.getD db.nextRelationId }) := by
  have hbc1 : LinkRowFieldType.before_create t ⟨vname, some lt, some j, vrelid⟩ =
      .ok lt := before_create_same _ _ _ rfl hdb
  unfold createFieldAux
  rw [hbc1]

/-- Helper: full run of a link-row field creation without a supplied
back-reference on a well-formed database: the field row is inserted, the
paired field is created on the linked table with the back-reference set, and
the original field's back-reference is saved. -/
theorem createFieldAux_run (db : FieldDB) (table lt : Table) (vname : String)
    (vrelid : Option Nat) (hwf : db.wf)
    (hdb : table.database_id = lt.database_id) :
    createFieldAux 2 db table ⟨vname, some lt, none, vrelid⟩ =
      .ok
        ({ fields := db.fields ++
            [{ id := db.nextId, table := table, name := vname,
               link_row_table := lt,
               link_row_related_field := some (db.nextId + 1),
               link_row_relation_id := vrelid.getD db.nextRelationId },
             { id := db.nextId + 1, table := lt, name := table.name,
               link_row_table := table,
               link_row_related_field := some db.nextId,
               link_row_relation_id := vrelid.getD db.nextRelationId }],
           nextId := db.nextId + 2,
           nextRelationId :=
             if vrelid.isSome then db.nextRelationId else db.nextRelationId + 1 },
         { id := db.nextId, table := table, name := vname,
           link_row_table := lt,
           link_row_related_field := some (db.nextId + 1),
           link_row_relation_id := vrelid.getD db.nextRelationId }) := by
  have hbc1 : LinkRowFieldType.before_create table ⟨vname, some lt, none, vrelid⟩ =
      .ok lt := before_create_same _ _ _ rfl hdb
  have hids : ∀ g ∈ db.fields, g.id ≠ db.nextId :=
    fun g hg => Nat.ne_of_lt (hwf g hg)
  unfold createFieldAux
  rw [hbc1]
  simp only []
  rw [(createFieldAux_rel_set 1 _ lt _ db.nextId rfl).symm.trans
    (createFieldAux_run_some _ lt table table.name
      (some (vrelid.getD db.nextRelationId)) db.nextId hdb.symm)]
  simp only [List.map_append, List.map_cons, List.map_nil]
  rw [map_upd_eq_self db.fields db.nextId _ hids]
  simp

/-- Claim C10: for every date field configuration, coerce_for_storage returns
any falsy raw value (null, empty string, zero, false) unchanged without
raising any error. -/
theorem C10_date_falsy_passthrough (parse : String → Option (Int × Int))
    (inst : FieldInstance) (v : Value) (h : v.falsy = true) :
    DateFieldType.prepare_value_for_db parse inst v = .ok v := by
  unfold DateFieldType.prepare_value_for_db
  simp [h]

/-- Witness for C10 at the empty string. -/
theorem C10_witness :
    (Value.str "").falsy = true ∧
    DateFieldType.prepare_value_for_db (fun _ => none) { id := 1 } (Value.str "") =
      .ok (Value.str "") :=
  ⟨rfl, C10_date_falsy_passthrough (fun _ => none) { id := 1 } (Value.str "") rfl⟩

/-- Claim C8: for every number field, coerce_for_storage parses a non-null raw
value as an arbitrary-precision decimal and fails with NegativeNotAllowed
exactly when the field disallows negative values and the parsed decimal is
strictly negative; otherwise it returns the parsed decimal. -/
theorem C8_number_coercion (inst : FieldInstance) (v : Value) (q : Rat)
    (hv : v ≠ .null) (hq : pyDecimal v = some q) :
    (NumberFieldType.prepare_value_for_db inst v = .error .NegativeNotAllowed ↔
      inst.number_negative = false ∧ q < 0) ∧
    (inst.number_negative = true ∨ 0 ≤ q →
      NumberFieldType.prepare_value_for_db inst v = .ok (.decimal q)) := by
  have hcoerce : NumberFieldType.prepare_value_for_db inst v =
      (if ¬ inst.number_negative ∧ q < 0 then .error .NegativeNotAllowed
       else .ok (.decimal q)) := by
    cases v <;> simp_all [NumberFieldType.prepare_value_for_db]
  rw [hcoerce]
  constructor
  · split_ifs with hc
    · constructor
      · intro _
        exact ⟨by simpa using hc.1, hc.2⟩
      · intro _
        rfl
    · constructor
      · intro h
        exact absurd h (by simp)
      · intro h
        exact absurd ⟨by simp [h.1], h.2⟩ hc
  · intro h
    rw [if_neg]
    rcases h with h | h
    · simp [h]
    · simp [not_lt.mpr h]

/-- Witness for C8 at a negative parsed decimal on a field disallowing
negatives. -/
theorem C8_witness :
    NumberFieldType.prepare_value_for_db { id := 1 } (Value.int (-3)) =
      .error .NegativeNotAllowed :=
  (C8_number_coercion { id := 1 } (Value.int (-3)) (-3)
      (by simp) (by norm_num [pyDecimal])).1.mpr
    ⟨rfl, by norm_num⟩

/-- Claim C3: for every number field update where only the allow-negative flag
changes from allowed to disallowed and no column alteration occurred, the
after_update pass rewrites every strictly negative row value to zero and keeps
every non-negative row value; when the column was altered or the flag did not
change in that direction, the pass leaves the rows untouched. -/
theorem C3_number_negative_backfill (ff tf : FieldInstance) (altered : Bool)
    (rows : List (Option Rat)) :
    (altered = false → tf.number_negative = false → ff.number_negative = true →
      (NumberFieldType.after_update ff tf altered rows).length = rows.length ∧
      ∀ (i : Nat) (x : Rat), rows[i]? = some (some x) →
        (x < 0 → (NumberFieldType.after_update ff tf altered rows)[i]? = some (some 0)) ∧
        (0 ≤ x → (NumberFieldType.after_update ff tf altered rows)[i]? = some (some x))) ∧
    (¬ (altered = false ∧ tf.number_negative = false ∧ ff.number_negative = true) →
      NumberFieldType.after_update ff tf altered rows = rows) := by
  constructor
  · intro ha ht hf
    unfold NumberFieldType.after_update
    simp only [ha, ht, hf]
    simp only [Bool.not_false, Bool.not_true, Bool.false_eq_true, not_false_iff,
      true_and, if_true]
    refine ⟨by simp, ?_⟩
    intro i x hx
    have : (rows.map (fun v => v.map (fun x => if x < 0 then 0 else x)))[i]? =
        some (some (if x < 0 then (0 : Rat) else x)) := by
      simp [List.getElem?_map, hx]
    constructor
    · intro hneg
      split at this
      · simpa using this
      · exact absurd hneg (by assumption)
    · intro hpos
      split at this
      · exact absurd hpos (not_le.mpr (by assumption))
      · simpa using this
  · intro hcond
    unfold NumberFieldType.after_update
    split
    · exact absurd ⟨by simp_all, by simp_all, by simp_all⟩ hcond
    · rfl

/-- Witness for C3: a table with rows -5 and 3 after switching the flag from
allowed to disallowed without column alteration. -/
theorem C3_witness :
    (NumberFieldType.after_update { id := 1, number_negative := true }
        { id := 1, number_negative := false } false [some (-5), some 3]).length = 2 ∧
    (NumberFieldType.after_update { id := 1, number_negative := true }
        { id := 1, number_negative := false } false [some (-5), some 3])[0]? =
      some (some 0) ∧
    (NumberFieldType.after_update { id := 1, number_negative := true }
        { id := 1, number_negative := false } false [some (-5), some 3])[1]? =
      some (some 3) := by
  have h := (C3_number_negative_backfill { id := 1, number_negative := true }
    { id := 1, number_negative := false } false [some (-5), some 3]).1 rfl rfl rfl
  refine ⟨h.1, (h.2 0 (-5) rfl).1 (by norm_num), (h.2 1 3 rfl).2 (by norm_num)⟩

/-- Claim C6: for a single-select field with zero options, converting to text
generates no old-value mapping expression (the bridge is skipped), the
conversion never errors, and every row's value becomes null. -/
theorem C6_single_select_zero_options (rows : List (Option Nat)) :
    SingleSelectFieldType.get_alter_column_prepare_old_value "postgresql" [] "text" =
      none ∧
    convertSingleSelectAway "postgresql" [] "text" rows = rows.map (fun _ => none) := by
  constructor
  · rfl
  · rfl

/-- Claim C4, counterexample: with an old field that already disallows
negative values (so that negatives are not newly disallowed) the generated
new-value expression still floors at zero — its value at -1 is 0 although
rounding -1 to zero decimal places gives -1 — contradicting the claim that the
floor is applied only when negatives are newly disallowed. -/
theorem C4_counterexample :
    ({ id := 1 } : FieldInstance).number_negative = false ∧
    NumberFieldType.get_alter_column_prepare_new_value "postgresql"
        { id := 1 } { id := 1 } =
      some (NumExpr.greatest0 (NumExpr.round NumExpr.input 0)) ∧
    NumExpr.eval (NumExpr.greatest0 (NumExpr.round NumExpr.input 0)) (-1) = 0 ∧
    roundRat (-1) 0 = -1 := by
  have hbase : roundRat (-1) 0 = -1 := by
    have h1 : ((-1 : Rat) * 10 ^ (0 : Nat)) = -1 := by norm_num
    have h2 : ⌊(-(-1 : Rat) + 1 / 2)⌋ = 1 := Int.floor_eq_iff.mpr (by norm_num)
    unfold roundRat roundHalfAway
    rw [h1, if_neg (by norm_num), h2]
    norm_num
  refine ⟨rfl, rfl, ?_, hbase⟩
  show max (roundRat (-1) 0) 0 = 0
  rw [hbase]
  norm_num

/-- Claim C4 as amended: the generated new-value expression rounds the
incoming value to the target field's decimal places (zero for an integer
number type) and floors the result at zero whenever the target field
disallows negative values, regardless of the old field's flag. -/
theorem C4_number_new_value_amended (ff tf : FieldInstance) (e : NumExpr)
    (h : NumberFieldType.get_alter_column_prepare_new_value "postgresql" ff tf =
      some e) (x : Rat) :
    e.eval x =
      if tf.number_negative then
        roundRat x
          (if tf.number_type = NUMBER_TYPE_DECIMAL then tf.number_decimal_places else 0)
      else
        max (roundRat x
          (if tf.number_type = NUMBER_TYPE_DECIMAL then tf.number_decimal_places else 0))
          0 := by
  unfold NumberFieldType.get_alter_column_prepare_new_value at h
  simp only [if_pos rfl] at h
  rcases hneg : tf.number_negative <;> simp [hneg] at h <;> subst h <;>
    simp [NumExpr.eval]

/-- Witness for C4's amended theorem at a decimal target field. -/
theorem C4_witness :
    NumExpr.eval (NumExpr.greatest0 (NumExpr.round NumExpr.input 2)) (-7/3) =
      max (roundRat (-7/3) 2) 0 := by
  have h := C4_number_new_value_amended { id := 1 }
    { id := 1, number_type := NUMBER_TYPE_DECIMAL, number_decimal_places := 2 }
    (NumExpr.greatest0 (NumExpr.round NumExpr.input 2)) rfl (-7/3)
  simpa using h

/-- Helper: in a list of options whose keys are pairwise distinct, the literal
key-value table built from the list resolves a member's key to its own row. -/
theorem find_map_pair {β γ : Type} [DecidableEq β] (key : SelectOptionRow → β)
    (val : SelectOptionRow → γ) (l : List SelectOptionRow) (a : SelectOptionRow)
    (hnd : (l.map key).Nodup) (ha : a ∈ l) :
    (l.map (fun x => (key x, val x))).find? (fun p => p.1 == key a) =
      some (key a, val a) := by
  induction l with
  | nil => cases ha
  | cons x t ih =>
    simp only [List.map_cons, List.nodup_cons] at hnd
    rcases List.mem_cons.mp ha with rfl | hat
    · simp [List.find?]
    · have hne : (key x == key a) = false := by
        by_cases hk : key x = key a
        · exact absurd (hk ▸ List.mem_map_of_mem key hat) hnd.1
        · simpa using hk
      simpa [List.find?, hne] using ih hnd.2 hat

/-- Claim C5: for a single-select field with distinct option ids and
case-insensitively distinct option values, the old-value bridge maps a stored
option id to the option's text, the new-value bridge resolves that text back
to the original option id by case-insensitive match, and any text not
matching an option becomes null. -/
theorem C5_single_select_text_round_trip (options : List SelectOptionRow)
    (o : SelectOptionRow)
    (hids : (options.map SelectOptionRow.id).Nodup)
    (hvals : (options.map (fun x => pyLower x.value)).Nodup)
    (ho : o ∈ options) (to_type from_type : String)
    (h1 : to_type ≠ "single_select") (h2 : from_type ≠ "single_select")
    (mOld : List (Nat × String)) (mNew : List (String × Nat))
    (hOld : SingleSelectFieldType.get_alter_column_prepare_old_value "postgresql"
      options to_type = some mOld)
    (hNew : SingleSelectFieldType.get_alter_column_prepare_new_value "postgresql"
      from_type options = some mNew) :
    evalOldBridge mOld (some o.id) = some o.value ∧
    evalNewBridge mNew (evalOldBridge mOld (some o.id)) = some o.id ∧
    ∀ s : String, (∀ p ∈ options, pyLower p.value ≠ pyLower s) →
      evalNewBridge mNew (some s) = none := by
  have hnil : options ≠ [] := List.ne_nil_of_mem ho
  have hmOld : mOld = options.map (fun x => (x.id, x.value)) := by
    unfold SingleSelectFieldType.get_alter_column_prepare_old_value at hOld
    rw [if_pos ⟨h1, rfl⟩, if_neg (by simpa using hnil)] at hOld
    exact (Option.some_injective _ hOld).symm
  have hmNew : mNew = options.map (fun x => (pyLower x.value, x.id)) := by
    unfold SingleSelectFieldType.get_alter_column_prepare_new_value at hNew
    rw [if_pos ⟨h2, rfl⟩, if_neg (by simpa using hnil)] at hNew
    exact (Option.some_injective _ hNew).symm
  have hOldEval : evalOldBridge mOld (some o.id) = some o.value := by
    rw [hmOld]
    show ((options.map (fun x => (x.id, x.value))).find?
      (fun p => p.1 == o.id)).map (fun p => p.2) = some o.value
    rw [find_map_pair SelectOptionRow.id SelectOptionRow.value options o hids ho]
    rfl
  refine ⟨hOldEval, ?_, ?_⟩
  · rw [hOldEval, hmNew]
    show ((options.map (fun x => (pyLower x.value, x.id))).find?
      (fun p => p.1 == pyLower o.value)).map (fun p => p.2) = some o.id
    rw [find_map_pair (fun x => pyLower x.value) SelectOptionRow.id options o hvals ho]
    rfl
  · intro s hs
    rw [hmNew]
    show ((options.map (fun x => (pyLower x.value, x.id))).find?
      (fun p => p.1 == pyLower s)).map (fun p => p.2) = none
    have hfind : (options.map (fun x => (pyLower x.value, x.id))).find?
        (fun p => p.1 == pyLower s) = none := by
      rw [List.find?_eq_none]
      intro p hp
      obtain ⟨x, hx, rfl⟩ := List.mem_map.mp hp
      simpa using hs x hx
    rw [hfind]
    rfl

/-- Witness for C5: options Red and Blue, the row set to option 1 round-trips
through text, and the text Green resolves to null. -/
theorem C5_witness :
    evalOldBridge [(1, "Red"), (2, "Blue")] (some 1) = some "Red" ∧
    evalNewBridge [("red", 1), ("blue", 2)]
      (evalOldBridge [(1, "Red"), (2, "Blue")] (some 1)) = some 1 ∧
    ∀ s : String,
      (∀ p ∈ [(⟨1, "Red", 9⟩ : SelectOptionRow), ⟨2, "Blue", 9⟩],
        pyLower p.value ≠ pyLower s) →
      evalNewBridge [("red", 1), ("blue", 2)] (some s) = none := by
  have h := C5_single_select_text_round_trip
    [⟨1, "Red", 9⟩, ⟨2, "Blue", 9⟩] ⟨1, "Red", 9⟩
    (by decide) (by decide) (by decide) "text" "text"
    (by decide) (by decide)
    [(1, "Red"), (2, "Blue")] [("red", 1), ("blue", 2)]
    (by decide) (by decide)
  exact h

/-- Helper: a member option's id is always assigned a rank by the generated
Case expression. -/
theorem caseRank_found (l : List SelectOptionRow) (a : SelectOptionRow)
    (ha : a ∈ l) :
    ∃ i, caseRank (l.map (fun o => some o.id)) (some a.id) = some i := by
  induction l with
  | nil => cases ha
  | cons x t ih =>
    by_cases hx : (some x.id == some a.id) = true
    · exact ⟨0, by simp [caseRank, hx]⟩
    · rcases List.mem_cons.mp ha with rfl | hat
      · exact absurd (by simp) hx
      · obtain ⟨i, hi⟩ := ih hat
        refine ⟨i + 1, ?_⟩
        simp only [List.map_cons, caseRank, hx, Bool.false_eq_true, if_false, hi]
        rfl

/-- Helper: ranks assigned by the Case expression respect the pairwise order
of the underlying option list when ids are distinct. -/
theorem caseRank_lt_of_pairwise (R : SelectOptionRow → SelectOptionRow → Prop)
    (l : List SelectOptionRow) (hp : l.Pairwise R)
    (hnd : (l.map SelectOptionRow.id).Nodup)
    (a b : SelectOptionRow) (ha : a ∈ l) (hb : b ∈ l)
    (hne : a ≠ b) (hno : ¬ R b a) :
    ∃ i j, caseRank (l.map (fun o => some o.id)) (some a.id) = some i ∧
      caseRank (l.map (fun o => some o.id)) (some b.id) = some j ∧ i < j := by
  induction l with
  | nil => cases ha
  | cons x t ih =>
    rw [List.pairwise_cons] at hp
    simp only [List.map_cons, List.nodup_cons] at hnd
    rcases List.mem_cons.mp ha with rfl | hat
    · have hbt : b ∈ t := by
        rcases List.mem_cons.mp hb with rfl | h
        · exact absurd rfl hne
        · exact h
      have hxb : (some a.id == some b.id) = false := by
        by_cases h : a.id = b.id
        · exact absurd (h ▸ List.mem_map_of_mem SelectOptionRow.id hbt) hnd.1
        · simpa using h
      obtain ⟨j, hj⟩ := caseRank_found t b hbt
      refine ⟨0, j + 1, by simp [caseRank], ?_, Nat.succ_pos j⟩
      simp only [List.map_cons, caseRank, hxb, Bool.false_eq_true, if_false, hj]
      rfl
    · rcases List.mem_cons.mp hb with rfl | hbt
      · exact absurd (hp.1 a hat) hno
      · have hxa : (some x.id == some a.id) = false := by
          by_cases h : x.id = a.id
          · exact absurd (h ▸ List.mem_map_of_mem SelectOptionRow.id hat) hnd.1
          · simpa using h
        have hxb : (some x.id == some b.id) = false := by
          by_cases h : x.id = b.id
          · exact absurd (h ▸ List.mem_map_of_mem SelectOptionRow.id hbt) hnd.1
          · simpa using h
        obtain ⟨i, j, hi, hj, hij⟩ := ih hp.2 hnd.2 hat hbt
        refine ⟨i + 1, j + 1, ?_, ?_, Nat.succ_lt_succ hij⟩
        · simp only [List.map_cons, caseRank, hxa, Bool.false_eq_true, if_false, hi]
          rfl
        · simp only [List.map_cons, caseRank, hxb, Bool.false_eq_true, if_false, hj]
          rfl

/-- Helper: the rank of a value in a concatenated Case list is its rank in the
first part when found there, else its shifted rank in the second part. -/
theorem caseRank_append (l1 l2 : List (Option Nat)) (v : Option Nat) :
    caseRank (l1 ++ l2) v =
      (caseRank l1 v).or ((caseRank l2 v).map (· + l1.length)) := by
  induction l1 with
  | nil =>
    simp only [List.nil_append, caseRank, List.length_nil, Option.or]
    cases caseRank l2 v <;> simp
  | cons e t ih =>
    by_cases he : (e == v) = true
    · simp [caseRank, he, Option.or]
    · have he2 : (e == v) = false := by simpa using he
      simp only [List.cons_append, caseRank, he2, if_false, List.length_cons, ih]
      rcases h1 : caseRank t v with _ | a <;> rcases h2 : caseRank l2 v with _ | b <;>
        simp [ih, h1, h2, Option.or, Nat.add_assoc]

/-- Claim C9: for a single-select field with distinct option ids, the Case
expression generated by get_order ranks rows by the lexical order of the
selected option's text value — ascending for an ascending sort and exactly
reversed for a descending sort — rather than by the stored numeric id. -/
theorem C9_single_select_get_order (opts : List SelectOptionRow) (dir : String)
    (hnd : (opts.map SelectOptionRow.id).Nodup) (o1 o2 : SelectOptionRow)
    (h1 : o1 ∈ opts) (h2 : o2 ∈ opts) (hv : o1.value < o2.value) :
    ∃ r1 r2,
      caseRank (SingleSelectFieldType.get_order opts dir) (some o1.id) = some r1 ∧
      caseRank (SingleSelectFieldType.get_order opts dir) (some o2.id) = some r2 ∧
      (dir ≠ "DESC" → r1 < r2) ∧ (dir = "DESC" → r2 < r1) := by
  have hperm : (sortByValue opts).Perm opts := List.perm_insertionSort _ _
  have hndS : ((sortByValue opts).map SelectOptionRow.id).Nodup :=
    ((hperm.map _).nodup_iff).mpr hnd
  have hpS : (sortByValue opts).Pairwise (fun a b => a.value ≤ b.value) :=
    List.sorted_insertionSort _ _
  have h1s : o1 ∈ sortByValue opts := hperm.mem_iff.mpr h1
  have h2s : o2 ∈ sortByValue opts := hperm.mem_iff.mpr h2
  have hne : o1 ≠ o2 := fun h => absurd (h ▸ hv) (lt_irrefl _)
  by_cases hdir : dir = "DESC"
  · have hpR : (sortByValue opts).reverse.Pairwise (fun a b => b.value ≤ a.value) :=
      List.pairwise_reverse.mpr hpS
    have hndR : ((sortByValue opts).reverse.map SelectOptionRow.id).Nodup := by
      rw [List.map_reverse]
      exact List.nodup_reverse.mpr hndS
    obtain ⟨i, j, hi, hj, hij⟩ := caseRank_lt_of_pairwise _ (sortByValue opts).reverse
      hpR hndR o2 o1 (List.mem_reverse.mpr h2s) (List.mem_reverse.mpr h1s)
      (Ne.symm hne) (not_le.mpr hv)
    have hgo : SingleSelectFieldType.get_order opts dir =
        (sortByValue opts).reverse.map (fun o => some o.id) ++ [none] := by
      unfold SingleSelectFieldType.get_order
      rw [if_pos hdir, List.reverse_cons, List.map_reverse]
    refine ⟨j, i, ?_, ?_, fun h => absurd hdir h, fun _ => hij⟩
    · rw [hgo, caseRank_append, hj]
      rfl
    · rw [hgo, caseRank_append, hi]
      rfl
  · have hgo : SingleSelectFieldType.get_order opts dir =
        none :: (sortByValue opts).map (fun o => some o.id) := by
      unfold SingleSelectFieldType.get_order
      rw [if_neg hdir]
    obtain ⟨i, j, hi, hj, hij⟩ := caseRank_lt_of_pairwise _ (sortByValue opts)
      hpS hndS o1 o2 h1s h2s hne (not_le.mpr hv)
    refine ⟨i + 1, j + 1, ?_, ?_, fun _ => Nat.succ_lt_succ hij, fun h => absurd h hdir⟩
    · rw [hgo]
      simp only [caseRank, hi]
      rfl
    · rw [hgo]
      simp only [caseRank, hj]
      rfl

/-- Claim C1: a link-row field creation without a linked table fails with
LinkRowTableNotProvided (the spec's LinkedTableRequired), and one whose linked
table lies in a different database fails with LinkRowTableNotInSameDatabase
(the spec's CrossDatabaseLink); both failures are raised by before_create, so
the creation aborts before any schema or data change and no Field row is
created on either table. -/
theorem C1_link_row_create_preconditions (db : FieldDB) (table : Table)
    (values : LinkRowValues) :
    (values.link_row_table = none →
      FieldHandler.create_field db table values = .error .LinkRowTableNotProvided ∧
      FieldHandler.create_field_state db table values = db) ∧
    (∀ lt : Table, values.link_row_table = some lt →
      lt.database_id ≠ table.database_id →
      FieldHandler.create_field db table values =
        .error .LinkRowTableNotInSameDatabase ∧
      FieldHandler.create_field_state db table values = db) := by
  constructor
  · intro h
    have hcf : FieldHandler.create_field db table values =
        .error .LinkRowTableNotProvided :=
      create_field_error db table values _ (before_create_none table values h)
    refine ⟨hcf, ?_⟩
    unfold FieldHandler.create_field_state
    rw [hcf]
  · intro lt h hdb
    have hcf : FieldHandler.create_field db table values =
        .error .LinkRowTableNotInSameDatabase :=
      create_field_error db table values _
        (before_create_cross table values lt h (Ne.symm hdb))
    refine ⟨hcf, ?_⟩
    unfold FieldHandler.create_field_state
    rw [hcf]

/-- Witness for C1: a creation without a linked table and one linking across
databases both fail and leave the field table empty. -/
theorem C1_witness :
    FieldHandler.create_field ⟨[], 0, 0⟩ ⟨1, 1, "T1"⟩ ⟨"L", none, none, none⟩ =
      .error .LinkRowTableNotProvided ∧
    FieldHandler.create_field_state ⟨[], 0, 0⟩ ⟨1, 1, "T1"⟩ ⟨"L", none, none, none⟩ =
      ⟨[], 0, 0⟩ ∧
    FieldHandler.create_field ⟨[], 0, 0⟩ ⟨1, 1, "T1"⟩
      ⟨"L", some ⟨2, 9, "T2"⟩, none, none⟩ = .error .LinkRowTableNotInSameDatabase ∧
    FieldHandler.create_field_state ⟨[], 0, 0⟩ ⟨1, 1, "T1"⟩
      ⟨"L", some ⟨2, 9, "T2"⟩, none, none⟩ = ⟨[], 0, 0⟩ := by
  have h1 := (C1_link_row_create_preconditions ⟨[], 0, 0⟩ ⟨1, 1, "T1"⟩
    ⟨"L", none, none, none⟩).1 rfl
  have h2 := (C1_link_row_create_preconditions ⟨[], 0, 0⟩ ⟨1, 1, "T1"⟩
    ⟨"L", some ⟨2, 9, "T2"⟩, none, none⟩).2 ⟨2, 9, "T2"⟩ rfl (by decide)
  exact ⟨h1.1, h1.2, h2.1, h2.2⟩

/-- Claim C2: on a well-formed database, creating a link-row field without a
supplied back-reference creates the paired field on the linked table with
both back-references set, so the pairing is symmetric (pairOf twice returns
the original field); deleting either side removes both rows; the paired
creation terminates in one hop (any extra fuel yields the same result); and
when the back-reference is already supplied, after_create creates no second
field. -/
theorem C2_link_row_pairing (db : FieldDB) (table : Table)
    (values : LinkRowValues) (hwf : db.wf) :
    (∀ (db2 : FieldDB) (f : LinkRowField),
      values.link_row_related_field = none →
      FieldHandler.create_field db table values = .ok (db2, f) →
      ∃ g : LinkRowField,
        g ≠ f ∧
        pairOf db2 f = some g ∧ pairOf db2 g = some f ∧
        g.table = f.link_row_table ∧ g.link_row_table = f.table ∧
        g.name = f.table.name ∧
        f ∈ db2.fields ∧ g ∈ db2.fields ∧
        (FieldHandler.delete_field db2 f).fields = db.fields ∧
        (FieldHandler.delete_field db2 g).fields = db.fields ∧
        ∀ extra : Nat, createFieldAux (extra + 2) db table values = .ok (db2, f)) ∧
    (∀ (db2 : FieldDB) (f : LinkRowField) (i : Nat),
      values.link_row_related_field = some i →
      FieldHandler.create_field db table values = .ok (db2, f) →
      db2.fields = db.fields ++ [f] ∧ f.link_row_related_field = some i) := by
  rcases values with ⟨vname, vtab, vrel, vrelid⟩
  constructor
  · intro db2 f hrel hok
    have hv : vrel = none := hrel
    subst hv
    rcases vtab with _ | lt
    · rw [create_field_error db table _ _ (before_create_none table _ rfl)] at hok
      simp at hok
    · by_cases hdb : table.database_id = lt.database_id
      · have hrun := createFieldAux_run db table lt vname vrelid hwf hdb
        have hok2 : FieldHandler.create_field db table
            ⟨vname, some lt, none, vrelid⟩ = _ := hrun
        rw [hok2] at hok
        have hdbeq : _ = db2 := congrArg Prod.fst (Except.ok.inj hok)
        have hfeq : _ = f := congrArg Prod.snd (Except.ok.inj hok)
        subst hdbeq
        subst hfeq
        refine ⟨(⟨db.nextId + 1, lt, table.name, table, some db.nextId,
          vrelid.getD db.nextRelationId⟩ : LinkRowField), ?_, ?_, ?_,
          rfl, rfl, rfl, ?_, ?_, ?_, ?_, ?_⟩
        · intro hgf
          exact Nat.succ_ne_self db.nextId (congrArg LinkRowField.id hgf)
        · have hn1 : db.fields.find? (fun g => g.id == db.nextId + 1) = none :=
            List.find?_eq_none.mpr (fun x hx => by
              simp only [beq_iff_eq]
              have := hwf x hx
              omega)
          have hb : (db.nextId == db.nextId + 1) = false := by simp
          simp [pairOf, List.find?_append, hn1, List.find?_cons, hb]
        · have hn0 : db.fields.find? (fun g => g.id == db.nextId) = none :=
            List.find?_eq_none.mpr (fun x hx => by
              simp only [beq_iff_eq]
              exact Nat.ne_of_lt (hwf x hx))
          simp [pairOf, List.find?_append, hn0, List.find?_cons]
        · simp
        · simp
        · show List.filter _ (_ ++ _) = _
          rw [List.filter_append]
          rw [List.filter_eq_self.mpr
            (fun x hx => by
              simp only [decide_eq_true_eq]
              have := hwf x hx
              exact ⟨by omega, by simp; omega⟩)]
          simp
        · show List.filter _ (_ ++ _) = _
          rw [List.filter_append]
          rw [List.filter_eq_self.mpr
            (fun x hx => by
              simp only [decide_eq_true_eq]
              have := hwf x hx
              exact ⟨by omega, by simp; omega⟩)]
          simp
        · intro extra
          exact (createFieldAux_fuel_indep extra db table _).trans hrun
      · rw [create_field_error db table _ _
          (before_create_cross table _ lt rfl hdb)] at hok
        simp at hok
  · intro db2 f i hrel hok
    have hv : vrel = some i := hrel
    subst hv
    rcases vtab with _ | lt
    · rw [create_field_error db table _ _ (before_create_none table _ rfl)] at hok
      simp at hok
    · by_cases hdb : table.database_id = lt.database_id
      · have hrun := createFieldAux_run_some db table lt vname vrelid i hdb
        have hok2 : FieldHandler.create_field db table
            ⟨vname, some lt, some i, vrelid⟩ = _ := hrun
        rw [hok2] at hok
        have hdbeq : _ = db2 := congrArg Prod.fst (Except.ok.inj hok)
        have hfeq : _ = f := congrArg Prod.snd (Except.ok.inj hok)
        subst hdbeq
        subst hfeq
        exact ⟨rfl, rfl⟩
      · rw [create_field_error db table _ _
          (before_create_cross table _ lt rfl hdb)] at hok
        simp at hok

/-- Witness for C2: creating a link on table 1 pointing at table 2 yields the
mirrored pair, and deleting either side empties the field table. -/
theorem C2_witness :
    ∃ g : LinkRowField,
      g ≠ ⟨0, ⟨1, 5, "T1"⟩, "Link", ⟨2, 5, "T2"⟩, some 1, 0⟩ ∧
      pairOf ⟨[⟨0, ⟨1, 5, "T1"⟩, "Link", ⟨2, 5, "T2"⟩, some 1, 0⟩,
          ⟨1, ⟨2, 5, "T2"⟩, "T1", ⟨1, 5, "T1"⟩, some 0, 0⟩], 2, 1⟩
        ⟨0, ⟨1, 5, "T1"⟩, "Link", ⟨2, 5, "T2"⟩, some 1, 0⟩ = some g ∧
      pairOf ⟨[⟨0, ⟨1, 5, "T1"⟩, "Link", ⟨2, 5, "T2"⟩, some 1, 0⟩,
          ⟨1, ⟨2, 5, "T2"⟩, "T1", ⟨1, 5, "T1"⟩, some 0, 0⟩], 2, 1⟩ g =
        some ⟨0, ⟨1, 5, "T1"⟩, "Link", ⟨2, 5, "T2"⟩, some 1, 0⟩ ∧
      g.table = ⟨2, 5, "T2"⟩ ∧ g.link_row_table = ⟨1, 5, "T1"⟩ ∧
      g.name = "T1" ∧
      (⟨0, ⟨1, 5, "T1"⟩, "Link", ⟨2, 5, "T2"⟩, some 1, 0⟩ : LinkRowField) ∈
        [⟨0, ⟨1, 5, "T1"⟩, "Link", ⟨2, 5, "T2"⟩, some 1, 0⟩,
          ⟨1, ⟨2, 5, "T2"⟩, "T1", ⟨1, 5, "T1"⟩, some 0, 0⟩] ∧
      g ∈ [⟨0, ⟨1, 5, "T1"⟩, "Link", ⟨2, 5, "T2"⟩, some 1, 0⟩,
          ⟨1, ⟨2, 5, "T2"⟩, "T1", ⟨1, 5, "T1"⟩, some 0, 0⟩] ∧
      (FieldHandler.delete_field ⟨[⟨0, ⟨1, 5, "T1"⟩, "Link", ⟨2, 5, "T2"⟩, some 1, 0⟩,
          ⟨1, ⟨2, 5, "T2"⟩, "T1", ⟨1, 5, "T1"⟩, some 0, 0⟩], 2, 1⟩
        ⟨0, ⟨1, 5, "T1"⟩, "Link", ⟨2, 5, "T2"⟩, some 1, 0⟩).fields = [] ∧
      (FieldHandler.delete_field ⟨[⟨0, ⟨1, 5, "T1"⟩, "Link", ⟨2, 5, "T2"⟩, some 1, 0⟩,
          ⟨1, ⟨2, 5, "T2"⟩, "T1", ⟨1, 5, "T1"⟩, some 0, 0⟩], 2, 1⟩ g).fields = [] ∧
      ∀ extra : Nat, createFieldAux (extra + 2) ⟨[], 0, 0⟩ ⟨1, 5, "T1"⟩
          ⟨"Link", some ⟨2, 5, "T2"⟩, none, none⟩ =
        .ok (⟨[⟨0, ⟨1, 5, "T1"⟩, "Link", ⟨2, 5, "T2"⟩, some 1, 0⟩,
            ⟨1, ⟨2, 5, "T2"⟩, "T1", ⟨1, 5, "T1"⟩, some 0, 0⟩], 2, 1⟩,
          ⟨0, ⟨1, 5, "T1"⟩, "Link", ⟨2, 5, "T2"⟩, some 1, 0⟩) :=
  (C2_link_row_pairing ⟨[], 0, 0⟩ ⟨1, 5, "T1"⟩ ⟨"Link", some ⟨2, 5, "T2"⟩, none, none⟩
    (by intro f hf; cases hf)).1
    ⟨[⟨0, ⟨1, 5, "T1"⟩, "Link", ⟨2, 5, "T2"⟩, some 1, 0⟩,
      ⟨1, ⟨2, 5, "T2"⟩, "T1", ⟨1, 5, "T1"⟩, some 0, 0⟩], 2, 1⟩
    ⟨0, ⟨1, 5, "T1"⟩, "Link", ⟨2, 5, "T2"⟩, some 1, 0⟩ rfl rfl

/-- Witness for C9: Blue sorts before Red, so for a DESC sort Red's rank is
below Blue's. -/
theorem C9_witness :
    ∃ r1 r2,
      caseRank (SingleSelectFieldType.get_order
        [⟨1, "Red", 9⟩, ⟨2, "Blue", 9⟩] "DESC") (some 2) = some r1 ∧
      caseRank (SingleSelectFieldType.get_order
        [⟨1, "Red", 9⟩, ⟨2, "Blue", 9⟩] "DESC") (some 1) = some r2 ∧
      ("DESC" ≠ "DESC" → r1 < r2) ∧ ("DESC" = "DESC" → r2 < r1) :=
  C9_single_select_get_order [⟨1, "Red", 9⟩, ⟨2, "Blue", 9⟩] "DESC"
    (by decide) ⟨2, "Blue", 9⟩ ⟨1, "Red", 9⟩ (by decide) (by decide)
    (by rw [String.lt_iff_toList_lt] ; decide)

/-- Helper: text coercion is idempotent. -/
theorem text_coerce_idem (v w : Value)
    (h : TextFieldType.coerce_for_storage v = .ok w) :
    TextFieldType.coerce_for_storage w = .ok w := by
  unfold TextFieldType.coerce_for_storage at h ⊢
  have hw := (Except.ok.inj h).symm
  subst hw
  rfl

/-- Helper: URL coercion is idempotent for any validator. -/
theorem url_coerce_idem (valid : String → Bool) (v w : Value)
    (h : URLFieldType.prepare_value_for_db valid v = .ok w) :
    URLFieldType.prepare_value_for_db valid w = .ok w := by
  cases v with
  | null =>
    have hw : Value.str "" = w := Except.ok.inj h
    subst hw
    rfl
  | str s =>
    replace h : (if s = "" then (Except.ok (Value.str "") : Except CoerceError Value)
        else if valid s then Except.ok (Value.str s)
        else Except.error CoerceError.InvalidFormat) = Except.ok w := h
    by_cases hs : s = ""
    · rw [if_pos hs] at h
      have hw : Value.str "" = w := Except.ok.inj h
      subst hw
      rfl
    · rw [if_neg hs] at h
      by_cases hv : valid s = true
      · rw [if_pos hv] at h
        have hw : Value.str s = w := Except.ok.inj h
        subst hw
        show (if s = "" then (Except.ok (Value.str "") : Except CoerceError Value)
          else if valid s then Except.ok (Value.str s)
          else Except.error CoerceError.InvalidFormat) = Except.ok (Value.str s)
        rw [if_neg hs, if_pos hv]
      · rw [if_neg hv] at h
        exact absurd h (by simp)
  | int n => exact absurd h (by simp [URLFieldType.prepare_value_for_db])
  | decimal q => exact absurd h (by simp [URLFieldType.prepare_value_for_db])
  | boolean b => exact absurd h (by simp [URLFieldType.prepare_value_for_db])
  | date d => exact absurd h (by simp [URLFieldType.prepare_value_for_db])
  | datetime m o => exact absurd h (by simp [URLFieldType.prepare_value_for_db])
  | opt o => exact absurd h (by simp [URLFieldType.prepare_value_for_db])
  | listInt l => exact absurd h (by simp [URLFieldType.prepare_value_for_db])
  | files l => exact absurd h (by simp [URLFieldType.prepare_value_for_db])

/-- Helper: email coercion is idempotent for any validator. -/
theorem email_coerce_idem (valid : String → Bool) (v w : Value)
    (h : EmailFieldType.prepare_value_for_db valid v = .ok w) :
    EmailFieldType.prepare_value_for_db valid w = .ok w := by
  cases v with
  | null =>
    have hw : Value.str "" = w := Except.ok.inj h
    subst hw
    rfl
  | str s =>
    replace h : (if s = "" then (Except.ok (Value.str "") : Except CoerceError Value)
        else if valid s then Except.ok (Value.str s)
        else Except.error CoerceError.InvalidFormat) = Except.ok w := h
    by_cases hs : s = ""
    · rw [if_pos hs] at h
      have hw : Value.str "" = w := Except.ok.inj h
      subst hw
      rfl
    · rw [if_neg hs] at h
      by_cases hv : valid s = true
      · rw [if_pos hv] at h
        have hw : Value.str s = w := Except.ok.inj h
        subst hw
        show (if s = "" then (Except.ok (Value.str "") : Except CoerceError Value)
          else if valid s then Except.ok (Value.str s)
          else Except.error CoerceError.InvalidFormat) = Except.ok (Value.str s)
        rw [if_neg hs, if_pos hv]
      · rw [if_neg hv] at h
        exact absurd h (by simp)
  | int n => exact absurd h (by simp [EmailFieldType.prepare_value_for_db])
  | decimal q => exact absurd h (by simp [EmailFieldType.prepare_value_for_db])
  | boolean b => exact absurd h (by simp [EmailFieldType.prepare_value_for_db])
  | date d => exact absurd h (by simp [EmailFieldType.prepare_value_for_db])
  | datetime m o => exact absurd h (by simp [EmailFieldType.prepare_value_for_db])
  | opt o => exact absurd h (by simp [EmailFieldType.prepare_value_for_db])
  | listInt l => exact absurd h (by simp [EmailFieldType.prepare_value_for_db])
  | files l => exact absurd h (by simp [EmailFieldType.prepare_value_for_db])

/-- Helper: number coercion is idempotent: an already-parsed decimal
re-coerces to an equal decimal. -/
theorem number_coerce_idem (inst : FieldInstance) (v w : Value)
    (h : NumberFieldType.prepare_value_for_db inst v = .ok w) :
    NumberFieldType.prepare_value_for_db inst w = .ok w := by
  by_cases hv : v = Value.null
  · subst hv
    have hw : Value.null = w := Except.ok.inj h
    subst hw
    rfl
  · rcases hq : pyDecimal v with _ | q
    · cases v <;> simp_all [NumberFieldType.prepare_value_for_db]
    · have hcoerce : NumberFieldType.prepare_value_for_db inst v =
          (if ¬ inst.number_negative ∧ q < 0 then .error .NegativeNotAllowed
           else .ok (.decimal q)) := by
        cases v <;> simp_all [NumberFieldType.prepare_value_for_db]
      rw [hcoerce] at h
      by_cases hc : ¬ inst.number_negative ∧ q < 0
      · rw [if_pos hc] at h
        exact absurd h (by simp)
      · rw [if_neg hc] at h
        have hw : Value.decimal q = w := Except.ok.inj h
        subst hw
        show (if ¬ inst.number_negative ∧ q < 0 then
            (Except.error CoerceError.NegativeNotAllowed : Except CoerceError Value)
          else Except.ok (Value.decimal q)) = Except.ok (Value.decimal q)
        rw [if_neg hc]

/-- Helper: boolean coercion is idempotent. -/
theorem boolean_coerce_idem (v w : Value)
    (h : BooleanFieldType.coerce_for_storage v = .ok w) :
    BooleanFieldType.coerce_for_storage w = .ok w := by
  unfold BooleanFieldType.coerce_for_storage at h ⊢
  have hw : Value.boolean (!v.falsy) = w := Except.ok.inj h
  subst hw
  simp [Value.falsy]

/-- Helper: date coercion is idempotent: an already-normalized UTC datetime
or calendar date re-coerces to an equal value. -/
theorem date_coerce_idem (parse : String → Option (Int × Int))
    (inst : FieldInstance) (v w : Value)
    (h : DateFieldType.prepare_value_for_db parse inst v = .ok w) :
    DateFieldType.prepare_value_for_db parse inst w = .ok w := by
  unfold DateFieldType.prepare_value_for_db at h
  by_cases hf : v.falsy = true
  · rw [if_pos hf] at h
    have hw : v = w := Except.ok.inj h
    subst hw
    unfold DateFieldType.prepare_value_for_db
    rw [if_pos hf]
  · rw [if_neg hf] at h
    have hfin : ∃ x, DateFieldType.dateFinish inst x = .ok w := by
      cases v with
      | str s =>
        replace h : (match parse s with
            | some p => DateFieldType.dateFinish inst (.datetime p.1 p.2)
            | none => (.error .UnparsableDate : Except CoerceError Value)) =
            .ok w := h
        rcases hp : parse s with _ | p
        · rw [hp] at h
          exact absurd h (by simp)
        · rw [hp] at h
          exact ⟨Value.datetime p.1 p.2, h⟩
      | null => simp [Value.falsy] at hf
      | int n => exact ⟨Value.int n, h⟩
      | decimal q => exact ⟨Value.decimal q, h⟩
      | boolean b => exact ⟨Value.boolean b, h⟩
      | date d => exact ⟨Value.date d, h⟩
      | datetime m off => exact ⟨Value.datetime m off, h⟩
      | opt o => exact ⟨Value.opt o, h⟩
      | listInt l => exact ⟨Value.listInt l, h⟩
      | files l => exact ⟨Value.files l, h⟩
    obtain ⟨x, hx⟩ := hfin
    have hshape : (∃ u : Int, inst.date_include_time = true ∧ w = .datetime u 0) ∨
        (∃ d : Int, inst.date_include_time = false ∧ w = .date d) := by
      cases x with
      | date d =>
        replace hx : DateFieldType.dateTimeToUTC inst (d * 1440) 0 = .ok w := hx
        unfold DateFieldType.dateTimeToUTC at hx
        rcases hI : inst.date_include_time with _ | _ <;> rw [hI] at hx
        · simp only [Bool.false_eq_true, if_false] at hx
          exact Or.inr ⟨_, rfl, (Except.ok.inj hx).symm⟩
        · simp only [if_true] at hx
          exact Or.inl ⟨_, rfl, (Except.ok.inj hx).symm⟩
      | datetime m off =>
        replace hx : DateFieldType.dateTimeToUTC inst m off = .ok w := hx
        unfold DateFieldType.dateTimeToUTC at hx
        rcases hI : inst.date_include_time with _ | _ <;> rw [hI] at hx
        · simp only [Bool.false_eq_true, if_false] at hx
          exact Or.inr ⟨_, rfl, (Except.ok.inj hx).symm⟩
        · simp only [if_true] at hx
          exact Or.inl ⟨_, rfl, (Except.ok.inj hx).symm⟩
      | null => exact absurd hx (by simp [DateFieldType.dateFinish])
      | str s => exact absurd hx (by simp [DateFieldType.dateFinish])
      | int n => exact absurd hx (by simp [DateFieldType.dateFinish])
      | decimal q => exact absurd hx (by simp [DateFieldType.dateFinish])
      | boolean b => exact absurd hx (by simp [DateFieldType.dateFinish])
      | opt o => exact absurd hx (by simp [DateFieldType.dateFinish])
      | listInt l => exact absurd hx (by simp [DateFieldType.dateFinish])
      | files l => exact absurd hx (by simp [DateFieldType.dateFinish])
    rcases hshape with ⟨u, hI, rfl⟩ | ⟨d, hI, rfl⟩
    · unfold DateFieldType.prepare_value_for_db
      rw [if_neg (by simp [Value.falsy])]
      show DateFieldType.dateFinish inst (.datetime u 0) = .ok (.datetime u 0)
      unfold DateFieldType.dateFinish DateFieldType.dateTimeToUTC
      rw [hI]
      simp
    · unfold DateFieldType.prepare_value_for_db
      rw [if_neg (by simp [Value.falsy])]
      show DateFieldType.dateFinish inst (.date d) = .ok (.date d)
      unfold DateFieldType.dateFinish DateFieldType.dateTimeToUTC
      rw [hI]
      simp [Int.mul_ediv_cancel d (by norm_num : (1440 : Int) ≠ 0)]

/-- Helper: link-row coercion is idempotent. -/
theorem link_row_coerce_idem (v w : Value)
    (h : LinkRowFieldType.coerce_for_storage v = .ok w) :
    LinkRowFieldType.coerce_for_storage w = .ok w := by
  cases v with
  | listInt l =>
    replace h : (if l.all (fun n => 0 ≤ n) then
        (Except.ok (Value.listInt l) : Except CoerceError Value)
      else Except.error CoerceError.InvalidLinkValue) = Except.ok w := h
    by_cases hc : (l.all fun n => 0 ≤ n) = true
    · rw [if_pos hc] at h
      have hw : Value.listInt l = w := Except.ok.inj h
      subst hw
      show (if l.all (fun n => 0 ≤ n) then
          (Except.ok (Value.listInt l) : Except CoerceError Value)
        else Except.error CoerceError.InvalidLinkValue) = Except.ok (Value.listInt l)
      rw [if_pos hc]
    · rw [if_neg hc] at h
      exact absurd h (by simp)
  | null => exact absurd h (by simp [LinkRowFieldType.coerce_for_storage])
  | str s => exact absurd h (by simp [LinkRowFieldType.coerce_for_storage])
  | int n => exact absurd h (by simp [LinkRowFieldType.coerce_for_storage])
  | decimal q => exact absurd h (by simp [LinkRowFieldType.coerce_for_storage])
  | boolean b => exact absurd h (by simp [LinkRowFieldType.coerce_for_storage])
  | date d => exact absurd h (by simp [LinkRowFieldType.coerce_for_storage])
  | datetime m o => exact absurd h (by simp [LinkRowFieldType.coerce_for_storage])
  | opt o => exact absurd h (by simp [LinkRowFieldType.coerce_for_storage])
  | files l => exact absurd h (by simp [LinkRowFieldType.coerce_for_storage])

/-- Helper: single-select coercion is idempotent: a resolved option belonging
to the field re-coerces to itself. -/
theorem single_select_coerce_idem (optionsDB : List SelectOptionRow)
    (inst : FieldInstance) (v w : Value)
    (h : SingleSelectFieldType.prepare_value_for_db optionsDB inst v = .ok w) :
    SingleSelectFieldType.prepare_value_for_db optionsDB inst w = .ok w := by
  cases v with
  | null =>
    have hw : Value.null = w := Except.ok.inj h
    subst hw
    rfl
  | int n =>
    replace h : (match optionsDB.find?
        (fun o => o.field_id == inst.id && (o.id : Int) == n) with
      | some o => (Except.ok (Value.opt o) : Except CoerceError Value)
      | none => Except.error CoerceError.InvalidOption) = Except.ok w := h
    rcases hfind : optionsDB.find?
        (fun o => o.field_id == inst.id && (o.id : Int) == n) with _ | o
    · rw [hfind] at h
      exact absurd h (by simp)
    · rw [hfind] at h
      have hw : Value.opt o = w := Except.ok.inj h
      subst hw
      have hp := List.find?_some hfind
      simp only [Bool.and_eq_true, beq_iff_eq] at hp
      show (if o.field_id == inst.id then
          (Except.ok (Value.opt o) : Except CoerceError Value)
        else Except.error CoerceError.InvalidOption) = Except.ok (Value.opt o)
      rw [if_pos (by simp [hp.1])]
  | opt o =>
    replace h : (if o.field_id == inst.id then
        (Except.ok (Value.opt o) : Except CoerceError Value)
      else Except.error CoerceError.InvalidOption) = Except.ok w := h
    by_cases ho : (o.field_id == inst.id) = true
    · rw [if_pos ho] at h
      have hw : Value.opt o = w := Except.ok.inj h
      subst hw
      show (if o.field_id == inst.id then
          (Except.ok (Value.opt o) : Except CoerceError Value)
        else Except.error CoerceError.InvalidOption) = Except.ok (Value.opt o)
      rw [if_pos ho]
    · rw [if_neg ho] at h
      exact absurd h (by simp)
  | str s => exact absurd h (by simp [SingleSelectFieldType.prepare_value_for_db])
  | decimal q => exact absurd h (by simp [SingleSelectFieldType.prepare_value_for_db])
  | boolean b => exact absurd h (by simp [SingleSelectFieldType.prepare_value_for_db])
  | date d => exact absurd h (by simp [SingleSelectFieldType.prepare_value_for_db])
  | datetime m o => exact absurd h (by simp [SingleSelectFieldType.prepare_value_for_db])
  | listInt l => exact absurd h (by simp [SingleSelectFieldType.prepare_value_for_db])
  | files l => exact absurd h (by simp [SingleSelectFieldType.prepare_value_for_db])

/-- Helper: the resolved visible name is stable under re-resolution. -/
theorem visible_name_stable (ov : Option String) (orig : String) :
    (if (match ov with
        | some vn => if vn.isEmpty then orig else vn
        | none => orig).isEmpty then orig
      else (match ov with
        | some vn => if vn.isEmpty then orig else vn
        | none => orig)) =
      (match ov with
        | some vn => if vn.isEmpty then orig else vn
        | none => orig) := by
  rcases ov with _ | vn
  · simp
  · by_cases hv : vn.isEmpty
    · simp [hv]
    · simp [hv]

/-- Helper: re-resolving an already-resolved file list returns it unchanged. -/
theorem resolveFiles_idem (userFiles : List UserFileRow) (l res : List FileObj)
    (h : FileFieldType.resolveFiles userFiles l = .ok res) :
    FileFieldType.resolveFiles userFiles res = .ok res := by
  induction l generalizing res with
  | nil =>
    unfold FileFieldType.resolveFiles at h
    have hres : ([] : List FileObj) = res := Except.ok.inj h
    subst hres
    rfl
  | cons o rest ih =>
    unfold FileFieldType.resolveFiles at h
    rcases hu : userFiles.find? (fun u => u.name == o.name) with _ | u
    · rw [hu] at h
      exact absurd h (by simp)
    · rw [hu] at h
      rcases hr : FileFieldType.resolveFiles userFiles rest with e | rest2
      · rw [hr] at h
        exact absurd h (by simp)
      · rw [hr] at h
        replace h : ((⟨u.name, some (match o.visible_name with
            | some vn => if vn.isEmpty then u.original_name else vn
            | none => u.original_name)⟩ : FileObj) :: rest2) = res :=
          Except.ok.inj h
        subst h
        unfold FileFieldType.resolveFiles
        have hname : u.name = o.name := by simpa using List.find?_some hu
        have hfind2 : userFiles.find? (fun u2 => u2.name == u.name) = some u := by
          rw [hname]
          exact hu
        rw [hfind2, ih rest2 hr]
        simp only [Except.ok.injEq, List.cons.injEq, FileObj.mk.injEq,
          Option.some.injEq, and_true, true_and]
        exact visible_name_stable o.visible_name u.original_name

/-- Helper: file coercion is idempotent: an already-resolved file list
re-coerces to an equal list. -/
theorem file_coerce_idem (userFiles : List UserFileRow) (v w : Value)
    (h : FileFieldType.prepare_value_for_db userFiles v = .ok w) :
    FileFieldType.prepare_value_for_db userFiles w = .ok w := by
  cases v with
  | null =>
    have hw : Value.files [] = w := Except.ok.inj h
    subst hw
    rfl
  | files l =>
    replace h : (FileFieldType.resolveFiles userFiles l).map Value.files =
        Except.ok w := h
    rcases hr : FileFieldType.resolveFiles userFiles l with e | res
    · rw [hr] at h
      exact absurd h (by simp [Except.map])
    · rw [hr] at h
      have hw : w = Value.files res := by
        simpa [Except.map] using h.symm
      subst hw
      show (FileFieldType.resolveFiles userFiles res).map Value.files =
        Except.ok (Value.files res)
      rw [resolveFiles_idem userFiles l res hr]
      rfl
  | str s => exact absurd h (by simp [FileFieldType.prepare_value_for_db])
  | int n => exact absurd h (by simp [FileFieldType.prepare_value_for_db])
  | decimal q => exact absurd h (by simp [FileFieldType.prepare_value_for_db])
  | boolean b => exact absurd h (by simp [FileFieldType.prepare_value_for_db])
  | date d => exact absurd h (by simp [FileFieldType.prepare_value_for_db])
  | datetime m o => exact absurd h (by simp [FileFieldType.prepare_value_for_db])
  | opt o => exact absurd h (by simp [FileFieldType.prepare_value_for_db])
  | listInt l => exact absurd h (by simp [FileFieldType.prepare_value_for_db])

/-- Claim C7: for every field type and every field configuration,
coerce_for_storage is idempotent — coercing an already-coerced value succeeds
and returns that value unchanged. -/
theorem C7_coerce_for_storage_idempotent (env : CoerceEnv) (kind : FieldTypeKind)
    (inst : FieldInstance) (v w : Value)
    (h : coerce_for_storage env kind inst v = .ok w) :
    coerce_for_storage env kind inst w = .ok w := by
  cases kind with
  | text => exact text_coerce_idem v w h
  | long_text => exact text_coerce_idem v w h
  | url => exact url_coerce_idem env.urlValid v w h
  | email => exact email_coerce_idem env.emailValid v w h
  | number => exact number_coerce_idem inst v w h
  | boolean => exact boolean_coerce_idem v w h
  | date => exact date_coerce_idem env.dateParse inst v w h
  | link_row => exact link_row_coerce_idem v w h
  | file => exact file_coerce_idem env.userFiles v w h
  | single_select => exact single_select_coerce_idem env.optionsDB inst v w h

/-- Witness for C7: a single-select value coerced from an option id
re-coerces to itself. -/
theorem C7_witness :
    coerce_for_storage
      ⟨fun _ => true, fun _ => true, fun _ => none, [⟨1, "Red", 7⟩], []⟩
      .single_select { id := 7 } (Value.opt ⟨1, "Red", 7⟩) =
      .ok (Value.opt ⟨1, "Red", 7⟩) :=
  C7_coerce_for_storage_idempotent
    ⟨fun _ => true, fun _ => true, fun _ => none, [⟨1, "Red", 7⟩], []⟩
    .single_select { id := 7 } (Value.int 1) (Value.opt ⟨1, "Red", 7⟩) rfl

end Baserow
